import Mathlib

/-!
Verification of the crowd-funding Solana program (src/program/src/lib.rs).

The program is shallowly embedded: account state is explicit
(`AccountInfo`), u64 arithmetic is `Nat` with wrapping reductions modulo
`2 ^ 64` (the program is compiled in release mode, where Rust integer
overflow wraps), borsh (de)serialization of the two on-wire structs is a
concrete byte-list codec, and a `.expect(..)` on a failed decode is an
explicit `panicked` outcome distinct from a returned `ProgramError`.
Each handler returns its outcome together with the (possibly mutated)
account list, mirroring in-place mutation through `RefCell` handles.
-/

namespace CrowdFunding

/-- A byte, as stored in account data and instruction payloads. -/
abbrev Byte := Fin 256

/-- Little-endian interpretation of a byte list (borsh integer decoding). -/
def decodeLE : List Byte → Nat
  | [] => 0
  | b :: bs => (b : Nat) + 256 * decodeLE bs

/-- Little-endian encoding of `n` into `w` bytes (borsh integer encoding). -/
def encodeLE : Nat → Nat → List Byte
  | 0, _ => []
  | w + 1, n => ⟨n % 256, Nat.mod_lt n (by decide)⟩ :: encodeLE w (n / 256)

theorem encodeLE_length (w n : Nat) : (encodeLE w n).length = w := by
  induction w generalizing n with
  | zero => rfl
  | succ w ih => simp [encodeLE, ih]

theorem decodeLE_encodeLE (w n : Nat) (h : n < 256 ^ w) :
    decodeLE (encodeLE w n) = n := by
  induction w generalizing n with
  | zero =>
    simp [encodeLE, decodeLE]
    omega
  | succ w ih =>
    have h2 : n / 256 < 256 ^ w := by
      rw [Nat.div_lt_iff_lt_mul (by decide : 0 < 256)]
      calc n < 256 ^ (w + 1) := h
        _ = 256 ^ w * 256 := by rw [pow_succ]
    simp [encodeLE, decodeLE, ih _ h2]
    omega

theorem encodeLE_decodeLE (bs : List Byte) :
    encodeLE bs.length (decodeLE bs) = bs := by
  induction bs with
  | nil => rfl
  | cons b bs ih =>
    have hb : (b : Nat) < 256 := b.isLt
    simp only [List.length_cons, encodeLE, decodeLE]
    have hmod : ((b : Nat) + 256 * decodeLE bs) % 256 = (b : Nat) := by
      rw [Nat.add_mul_mod_self_left, Nat.mod_eq_of_lt hb]
    have hdiv : ((b : Nat) + 256 * decodeLE bs) / 256 = decodeLE bs := by
      rw [Nat.add_mul_div_left _ _ (by decide : 0 < 256),
        Nat.div_eq_of_lt hb, Nat.zero_add]
    congr 1
    · exact Fin.ext hmod
    · rw [hdiv, ih]

theorem decodeLE_lt (bs : List Byte) : decodeLE bs < 256 ^ bs.length := by
  induction bs with
  | nil => simp [decodeLE]
  | cons b bs ih =>
    have hb : (b : Nat) < 256 := b.isLt
    simp only [decodeLE, List.length_cons, pow_succ]
    omega

/-- Reads exactly `n` bytes off the front of `input` (borsh reader step). -/
def readBytes (n : Nat) (input : List Byte) : Option (List Byte × List Byte) :=
  if n ≤ input.length then some (input.take n, input.drop n) else none

theorem readBytes_append {a : List Byte} {n : Nat} (b : List Byte)
    (h : a.length = n) : readBytes n (a ++ b) = some (a, b) := by
  subst h
  simp [readBytes, List.length_append, List.take_left, List.drop_left]

theorem readBytes_some {n : Nat} {input a r : List Byte}
    (h : readBytes n input = some (a, r)) :
    input = a ++ r ∧ a.length = n := by
  unfold readBytes at h
  split at h
  · obtain ⟨rfl, rfl⟩ := Prod.mk.injEq .. ▸ Option.some.inj h
    exact ⟨(List.take_append_drop n input).symm,
      by rw [List.length_take]; omega⟩
  · exact absurd h (by simp)

/-- The persisted campaign record (`CampainDetails` in lib.rs); `admin` is a
32-byte pubkey read as a little-endian number, the three display strings are
kept as raw byte sequences, `amount_donated` is a u64. -/
structure CampainDetails where
  admin : Nat
  name : List Byte
  description : List Byte
  image_link : List Byte
  amount_donated : Nat
deriving DecidableEq, Repr

/-- borsh encoding of a `CampainDetails` value: 32-byte admin key, then each
string as a u32 length prefix followed by its bytes, then the u64 counter. -/
def serializeCampain (c : CampainDetails) : List Byte :=
  encodeLE 32 c.admin ++ (encodeLE 4 c.name.length ++ (c.name ++
    (encodeLE 4 c.description.length ++ (c.description ++
      (encodeLE 4 c.image_link.length ++ (c.image_link ++
        encodeLE 8 c.amount_donated))))))

/-- borsh decoding of a `CampainDetails` value off the front of a byte
sequence, returning the decoded record together with the unread remainder. -/
def deserializeCampain (input : List Byte) :
    Option (CampainDetails × List Byte) :=
  (readBytes 32 input).bind fun s1 =>
  (readBytes 4 s1.2).bind fun s2 =>
  (readBytes (decodeLE s2.1) s2.2).bind fun s3 =>
  (readBytes 4 s3.2).bind fun s4 =>
  (readBytes (decodeLE s4.1) s4.2).bind fun s5 =>
  (readBytes 4 s5.2).bind fun s6 =>
  (readBytes (decodeLE s6.1) s6.2).bind fun s7 =>
  (readBytes 8 s7.2).bind fun s8 =>
  some ({ admin := decodeLE s1.1, name := s3.1, description := s5.1,
          image_link := s7.1, amount_donated := decodeLE s8.1 }, s8.2)

/-- `CampainDetails::try_from_slice`: decode and demand the whole input was
consumed. -/
def tryFromSliceCampain (input : List Byte) : Option CampainDetails :=
  match deserializeCampain input with
  | some (c, []) => some c
  | _ => none

/-- Range conditions every decoded record satisfies and every encodable
record must satisfy: the pubkey fits 32 bytes, string lengths fit a u32,
the counter fits a u64. -/
def ValidCampain (c : CampainDetails) : Prop :=
  c.admin < 256 ^ 32 ∧ c.name.length < 256 ^ 4 ∧
  c.description.length < 256 ^ 4 ∧ c.image_link.length < 256 ^ 4 ∧
  c.amount_donated < 256 ^ 8

instance (c : CampainDetails) : Decidable (ValidCampain c) := by
  unfold ValidCampain; infer_instance

theorem serializeCampain_length (c : CampainDetails) :
    (serializeCampain c).length =
      52 + c.name.length + c.description.length + c.image_link.length := by
  simp [serializeCampain, encodeLE_length]
  omega

theorem deserializeCampain_append (c : CampainDetails) (hv : ValidCampain c)
    (rest : List Byte) :
    deserializeCampain (serializeCampain c ++ rest) = some (c, rest) := by
  obtain ⟨h1, h2, h3, h4, h5⟩ := hv
  unfold serializeCampain deserializeCampain
  rw [List.append_assoc, readBytes_append _ (encodeLE_length 32 c.admin)]
  simp only [Option.bind_eq_bind, Option.some_bind]
  rw [List.append_assoc, readBytes_append _ (encodeLE_length 4 c.name.length)]
  simp only [Option.some_bind]
  rw [decodeLE_encodeLE 4 c.name.length h2, List.append_assoc,
    readBytes_append _ rfl]
  simp only [Option.some_bind]
  rw [List.append_assoc,
    readBytes_append _ (encodeLE_length 4 c.description.length)]
  simp only [Option.some_bind]
  rw [decodeLE_encodeLE 4 c.description.length h3, List.append_assoc,
    readBytes_append _ rfl]
  simp only [Option.some_bind]
  rw [List.append_assoc,
    readBytes_append _ (encodeLE_length 4 c.image_link.length)]
  simp only [Option.some_bind]
  rw [decodeLE_encodeLE 4 c.image_link.length h4, List.append_assoc,
    readBytes_append _ rfl]
  simp only [Option.some_bind]
  rw [readBytes_append _ (encodeLE_length 8 c.amount_donated)]
  simp only [Option.some_bind]
  rw [decodeLE_encodeLE 32 c.admin h1, decodeLE_encodeLE 8 c.amount_donated h5]

theorem deserializeCampain_eq_some {input : List Byte} {c : CampainDetails}
    {rest : List Byte} (h : deserializeCampain input = some (c, rest)) :
    input = serializeCampain c ++ rest ∧ ValidCampain c := by
  unfold deserializeCampain at h
  simp only [Option.bind_eq_bind, Option.bind_eq_some] at h
  obtain ⟨⟨adminBytes, r1⟩, hA, ⟨nl, r2⟩, hNL, ⟨nm, r3⟩, hN, ⟨dl, r4⟩, hDL,
    ⟨ds, r5⟩, hD, ⟨il, r6⟩, hIL, ⟨im, r7⟩, hI, ⟨am, r8⟩, hAM, hfin⟩ := h
  injection hfin with hfin1
  injection hfin1 with hcEq hrEq
  subst hcEq
  subst hrEq
  obtain ⟨rfl, hAlen⟩ := readBytes_some hA
  obtain ⟨rfl, hNLlen⟩ := readBytes_some hNL
  obtain ⟨rfl, hNlen⟩ := readBytes_some hN
  obtain ⟨rfl, hDLlen⟩ := readBytes_some hDL
  obtain ⟨rfl, hDlen⟩ := readBytes_some hD
  obtain ⟨rfl, hILlen⟩ := readBytes_some hIL
  obtain ⟨rfl, hIlen⟩ := readBytes_some hI
  obtain ⟨rfl, hAMlen⟩ := readBytes_some hAM
  dsimp only at hNlen hDlen hIlen
  have e0 : encodeLE 32 (decodeLE adminBytes) = adminBytes := by
    rw [← hAlen, encodeLE_decodeLE]
  have e1 : encodeLE 4 nm.length = nl := by
    rw [hNlen, ← hNLlen, encodeLE_decodeLE]
  have e2 : encodeLE 4 ds.length = dl := by
    rw [hDlen, ← hDLlen, encodeLE_decodeLE]
  have e3 : encodeLE 4 im.length = il := by
    rw [hIlen, ← hILlen, encodeLE_decodeLE]
  have e4 : encodeLE 8 (decodeLE am) = am := by
    rw [← hAMlen, encodeLE_decodeLE]
  constructor
  · unfold serializeCampain
    dsimp only
    rw [e0, e1, e2, e3, e4]
    simp [List.append_assoc]
  · unfold ValidCampain
    dsimp only
    refine ⟨?_, ?_, ?_, ?_, ?_⟩
    · simpa [hAlen] using decodeLE_lt adminBytes
    · rw [hNlen, ← hNLlen]; exact decodeLE_lt nl
    · rw [hDlen, ← hDLlen]; exact decodeLE_lt dl
    · rw [hIlen, ← hILlen]; exact decodeLE_lt il
    · simpa [hAMlen] using decodeLE_lt am

theorem tryFromSliceCampain_eq_some {input : List Byte} {c : CampainDetails}
    (h : tryFromSliceCampain input = some c) :
    input = serializeCampain c ∧ ValidCampain c := by
  unfold tryFromSliceCampain at h
  split at h
  · next c' heq =>
    obtain rfl : c' = c := Option.some.inj h
    have := deserializeCampain_eq_some heq
    simpa using this
  · exact absurd h (by simp)

theorem tryFromSliceCampain_serialize (c : CampainDetails)
    (hv : ValidCampain c) :
    tryFromSliceCampain (serializeCampain c) = some c := by
  have h := deserializeCampain_append c hv []
  rw [List.append_nil] at h
  unfold tryFromSliceCampain
  rw [h]

/-- The transient withdrawal payload (`WithdrawRequest` in lib.rs). -/
structure WithdrawRequest where
  amount : Nat
deriving DecidableEq, Repr

/-- `WithdrawRequest::try_from_slice`: a single u64, whole input consumed. -/
def tryFromSliceWithdraw (input : List Byte) : Option WithdrawRequest :=
  match readBytes 8 input with
  | some (am, []) => some { amount := decodeLE am }
  | _ => none

theorem tryFromSliceWithdraw_eq_some {input : List Byte} {r : WithdrawRequest}
    (h : tryFromSliceWithdraw input = some r) :
    input = encodeLE 8 r.amount ∧ r.amount < 256 ^ 8 := by
  unfold tryFromSliceWithdraw at h
  split at h
  · next am heq =>
    obtain rfl : ({ amount := decodeLE am } : WithdrawRequest) = r :=
      Option.some.inj h
    obtain ⟨hin, hlen⟩ := readBytes_some heq
    constructor
    · rw [hin]
      dsimp only
      rw [← hlen, encodeLE_decodeLE, List.append_nil]
    · simpa [hlen] using decodeLE_lt am
  · exact absurd h (by simp)

/-- Wrapping bound of Rust u64 arithmetic. -/
def U64LIMIT : Nat := 2 ^ 64

/-- Wrapping u64 addition (release-mode Rust `+`). -/
def wadd (a b : Nat) : Nat := (a + b) % U64LIMIT

/-- Wrapping u64 subtraction (release-mode Rust `-`). -/
def wsub (a b : Nat) : Nat := (a + U64LIMIT - b) % U64LIMIT

theorem wadd_eq {a b : Nat} (h : a + b < U64LIMIT) : wadd a b = a + b :=
  Nat.mod_eq_of_lt h

theorem wsub_eq {a b : Nat} (h1 : b ≤ a) (h2 : a < U64LIMIT) :
    wsub a b = a - b := by
  have h3 : a + U64LIMIT - b = (a - b) + U64LIMIT := by omega
  unfold wsub
  rw [h3, Nat.add_mod_right, Nat.mod_eq_of_lt (by omega)]

/-- One Solana account as the handlers see it: pubkey (32-byte value as a
number), signer flag, owning program, lamport balance and data cell. -/
structure AccountInfo where
  key : Nat
  is_signer : Bool
  owner : Nat
  lamports : Nat
  data : List Byte
deriving DecidableEq, Repr

/-- The errors the program can return (`ProgramError` variants it uses,
plus the implicit conversions: `NotEnoughAccountKeys` from
`next_account_info`, `BorshIoError` from a failed `serialize(..)?`). -/
inductive ProgramError where
  | InvalidInstructionData
  | IncorrectProgramId
  | InvalidAccountData
  | InsufficientFunds
  | NotEnoughAccountKeys
  | BorshIoError
deriving DecidableEq, Repr

/-- Outcome of one call: `Ok(())`, a returned `ProgramError`, or a process
abort through `.expect(..)` on a failed borsh decode. -/
inductive Status where
  | ok : Status
  | err : ProgramError → Status
  | panicked : Status
deriving DecidableEq, Repr

/-- Writing `src` through an `io::Write` slice writer over `buf`: the prefix
that fits is always written; the write as a whole succeeds only when all of
`src` fits (`src.length ≤ buf.length`). -/
def writeIntoBuffer (buf src : List Byte) : List Byte :=
  src.take buf.length ++ buf.drop src.length

theorem writeIntoBuffer_of_length_le {buf src : List Byte}
    (h : src.length ≤ buf.length) :
    writeIntoBuffer buf src = src ++ buf.drop src.length := by
  unfold writeIntoBuffer
  rw [List.take_of_length_le h]

theorem writeIntoBuffer_of_length_eq {buf src : List Byte}
    (h : src.length = buf.length) : writeIntoBuffer buf src = src := by
  rw [writeIntoBuffer_of_length_le h.le, h, List.drop_length,
    List.append_nil]

/-- `create_campain` (lib.rs:64-130). Checks: creator signs, program owns
the writing account, the payload decodes (a failure is a panic through
`.expect`), `payload.admin` equals the creator key, the balance covers the
rent floor; then stores the payload with `amount_donated := 0`. The final
`serialize(..)?` partially writes and returns an error when the cell is too
small for the encoding. -/
def create_campain (rent : Nat → Nat) (program_id : Nat)
    (accounts : List AccountInfo) (instruction_data : List Byte) :
    Status × List AccountInfo :=
  match accounts with
  | writing_account :: creator_account :: rest =>
    if creator_account.is_signer = false then
      (.err .IncorrectProgramId, accounts)
    else if writing_account.owner ≠ program_id then
      (.err .IncorrectProgramId, accounts)
    else
      match tryFromSliceCampain instruction_data with
      | none => (.panicked, accounts)
      | some input_data =>
        if input_data.admin ≠ creator_account.key then
          (.err .InvalidInstructionData, accounts)
        else if writing_account.lamports < rent writing_account.data.length
        then
          (.err .InsufficientFunds, accounts)
        else
          let enc := serializeCampain { input_data with amount_donated := 0 }
          let newWriting :=
            { writing_account with
                data := writeIntoBuffer writing_account.data enc }
          if enc.length ≤ writing_account.data.length then
            (.ok, newWriting :: creator_account :: rest)
          else
            (.err .BorshIoError, newWriting :: creator_account :: rest)
  | _ => (.err .NotEnoughAccountKeys, accounts)

/-- `withdraw` (lib.rs:138-204). Checks: admin signs, program owns the
writing account, the stored bytes decode (else panic), the stored admin is
the signer, the payload decodes as a `WithdrawRequest` (else panic), and the
wrapping difference `balance - rent_floor` is not below the request; then
moves `amount` from the writing account to the admin account. -/
def withdraw (rent : Nat → Nat) (program_id : Nat)
    (accounts : List AccountInfo) (instruction_data : List Byte) :
    Status × List AccountInfo :=
  match accounts with
  | writing_account :: admin_account :: rest =>
    if admin_account.is_signer = false then
      (.err .IncorrectProgramId, accounts)
    else if writing_account.owner ≠ program_id then
      (.err .IncorrectProgramId, accounts)
    else
      match tryFromSliceCampain writing_account.data with
      | none => (.panicked, accounts)
      | some campaign_data =>
        if campaign_data.admin ≠ admin_account.key then
          (.err .InvalidAccountData, accounts)
        else
          match tryFromSliceWithdraw instruction_data with
          | none => (.panicked, accounts)
          | some input_data =>
            if wsub writing_account.lamports
                (rent writing_account.data.length) < input_data.amount then
              (.err .InsufficientFunds, accounts)
            else
              (.ok,
                { writing_account with
                    lamports := wsub writing_account.lamports
                      input_data.amount } ::
                { admin_account with
                    lamports := wadd admin_account.lamports
                      input_data.amount } :: rest)
  | _ => (.err .NotEnoughAccountKeys, accounts)

/-- `donate` (lib.rs:212-261). Checks: donor signs, program owns the writing
and staging accounts, the stored bytes decode (else panic); then adds the
staging balance to `amount_donated` and to the writing balance, zeroes the
staging balance, and re-serializes the record into the writing cell. The
instruction payload is never read. -/
def donate (program_id : Nat) (accounts : List AccountInfo)
    (_instruction_data : List Byte) : Status × List AccountInfo :=
  match accounts with
  | writing_account :: donator_program_account :: donator :: rest =>
    if donator.is_signer = false then
      (.err .IncorrectProgramId, accounts)
    else if writing_account.owner ≠ program_id then
      (.err .IncorrectProgramId, accounts)
    else if donator_program_account.owner ≠ program_id then
      (.err .IncorrectProgramId, accounts)
    else
      match tryFromSliceCampain writing_account.data with
      | none => (.panicked, accounts)
      | some campaign_data =>
        let moved := donator_program_account.lamports
        let newRecord :=
          { campaign_data with
              amount_donated := wadd campaign_data.amount_donated moved }
        let enc := serializeCampain newRecord
        let newWriting :=
          { writing_account with
              lamports := wadd writing_account.lamports moved,
              data := writeIntoBuffer writing_account.data enc }
        let newStaging := { donator_program_account with lamports := 0 }
        if enc.length ≤ writing_account.data.length then
          (.ok, newWriting :: newStaging :: donator :: rest)
        else
          (.err .BorshIoError, newWriting :: newStaging :: donator :: rest)
  | _ => (.err .NotEnoughAccountKeys, accounts)

/-- `process_instruction` (lib.rs:14-45): byte 0 selects the handler, the
remaining bytes are the handler's payload; empty input or an unknown opcode
yields `InvalidInstructionData`. -/
def process_instruction (rent : Nat → Nat) (program_id : Nat)
    (accounts : List AccountInfo) (instruction_data : List Byte) :
    Status × List AccountInfo :=
  match instruction_data with
  | [] => (.err .InvalidInstructionData, accounts)
  | b :: rest =>
    if b = (0 : Byte) then create_campain rent program_id accounts rest
    else if b = (1 : Byte) then withdraw rent program_id accounts rest
    else if b = (2 : Byte) then donate program_id accounts rest
    else (.err .InvalidInstructionData, accounts)

/-- A rent function charging nothing, for concrete scenarios. -/
def rentZero : Nat → Nat := fun _ => 0

/-- A rent function with a flat floor of 10 lamports, for concrete
scenarios. -/
def rentTen : Nat → Nat := fun _ => 10

/-- A campaign record with admin key 2, empty display strings and the given
counter value. -/
def cRec (amt : Nat) : CampainDetails :=
  { admin := 2, name := [], description := [], image_link := [],
    amount_donated := amt }

/-- A program-owned writing account (owner 7) holding the encoding of
`cRec amt` and the given balance. -/
def wEx (bal amt : Nat) : AccountInfo :=
  { key := 1, is_signer := false, owner := 7, lamports := bal,
    data := serializeCampain (cRec amt) }

/-- A signing creator/admin account whose key matches `(cRec _).admin`. -/
def adminEx (bal : Nat) : AccountInfo :=
  { key := 2, is_signer := true, owner := 0, lamports := bal, data := [] }

/-- A program-owned staging account holding `m` lamports. -/
def stagingEx (m : Nat) : AccountInfo :=
  { key := 3, is_signer := false, owner := 7, lamports := m, data := [] }

/-- A signing donor account. -/
def donorEx : AccountInfo :=
  { key := 4, is_signer := true, owner := 0, lamports := 0, data := [] }

/-- Claim C1: the spec requires a malformed payload or malformed stored
bytes to fail the single call with a `DataCorruption` error; the code
instead calls `.expect(..)` on the failed decode and panics. Concretely,
a Create call that passes the signer and ownership checks but carries an
undecodable (empty) payload panics rather than returning any error. -/
theorem C1_decode_failure_panics :
    create_campain rentZero 7 [wEx 0 0, adminEx 0] [] =
      (.panicked, [wEx 0 0, adminEx 0]) := by
  decide

/-- Claim C4: when `currentBalance < floor`, the spec says Withdraw must
fail with `InsufficientFunds` leaving balances unchanged; the code computes
`balance - rent_exemption` with wrapping u64 subtraction, so the check
passes and the withdrawal goes through. With balance 5, floor 10 and a
requested amount of 3 the call succeeds and moves 3 lamports. -/
theorem C4_underflow_withdraw_goes_through :
    (withdraw rentTen 7 [wEx 5 0, adminEx 50] (encodeLE 8 3)).1 = .ok ∧
    (withdraw rentTen 7 [wEx 5 0, adminEx 50] (encodeLE 8 3)).2 =
      [{ wEx 5 0 with lamports := 2 }, { adminEx 50 with lamports := 53 }] := by
  decide

/-- Claim C8: the Donate handler reads the donor account only through its
signer flag and passes it through untouched, so changing nothing but the
donor's identity (key) leaves the status, the writing/staging account
updates and the remaining accounts identical. -/
theorem C8_donate_ignores_donor_identity (pid : Nat) (w s d : AccountInfo)
    (k : Nat) (rest : List AccountInfo) (instr : List Byte) :
    (donate pid (w :: s :: { d with key := k } :: rest) instr).1 =
      (donate pid (w :: s :: d :: rest) instr).1 ∧
    (donate pid (w :: s :: { d with key := k } :: rest) instr).2.take 2 =
      (donate pid (w :: s :: d :: rest) instr).2.take 2 ∧
    (donate pid (w :: s :: { d with key := k } :: rest) instr).2.drop 3 =
      (donate pid (w :: s :: d :: rest) instr).2.drop 3 := by
  cases d with
  | mk dk dsig down dlam ddat =>
    unfold donate
    dsimp only
    by_cases h1 : dsig = false
    · simp [h1]
    · rw [if_neg h1, if_neg h1]
      by_cases h2 : w.owner ≠ pid
      · simp [h2]
      · rw [if_neg h2, if_neg h2]
        by_cases h3 : s.owner ≠ pid
        · simp [h3]
        · rw [if_neg h3, if_neg h3]
          cases tryFromSliceCampain w.data with
          | none => simp
          | some c =>
            dsimp only
            split <;> simp

/-- Claim C9: the dispatcher fails with `InvalidInstructionData` on empty
input or an opcode byte other than 0, 1, 2, touching no account; otherwise
byte 0 routes to create (0), withdraw (1) or donate (2), each receiving
exactly the remaining bytes as payload. -/
theorem C9_dispatcher (rent : Nat → Nat) (pid : Nat)
    (accounts : List AccountInfo) (instr : List Byte) :
    (instr = [] →
      process_instruction rent pid accounts instr =
        (.err .InvalidInstructionData, accounts)) ∧
    (∀ (b : Byte) (rest : List Byte), instr = b :: rest →
      (b = 0 → process_instruction rent pid accounts instr =
        create_campain rent pid accounts rest) ∧
      (b = 1 → process_instruction rent pid accounts instr =
        withdraw rent pid accounts rest) ∧
      (b = 2 → process_instruction rent pid accounts instr =
        donate pid accounts rest) ∧
      (b ≠ 0 → b ≠ 1 → b ≠ 2 →
        process_instruction rent pid accounts instr =
          (.err .InvalidInstructionData, accounts))) := by
  constructor
  · rintro rfl
    rfl
  · rintro b rest rfl
    refine ⟨?_, ?_, ?_, ?_⟩
    · rintro rfl
      rfl
    · rintro rfl
      rfl
    · rintro rfl
      rfl
    · intro h0 h1 h2
      simp only [process_instruction]
      rw [if_neg h0, if_neg h1, if_neg h2]

/-- Witness for C9 at a concrete unknown opcode: opcode byte 5 is rejected
with `InvalidInstructionData` and the account list is untouched. -/
theorem C9_witness :
    process_instruction rentZero 7 [] [(5 : Byte)] =
      (.err .InvalidInstructionData, []) :=
  ((C9_dispatcher rentZero 7 [] [(5 : Byte)]).2 5 [] rfl).2.2.2
    (by decide) (by decide) (by decide)

/-- Claim C10: the Donate handler never reads its payload, so two
instructions with opcode 2 and arbitrary (possibly different) trailing
bytes behave identically on the same account state. -/
theorem C10_donate_ignores_payload (rent : Nat → Nat) (pid : Nat)
    (accounts : List AccountInfo) (p1 p2 : List Byte) :
    process_instruction rent pid accounts ((2 : Byte) :: p1) =
      process_instruction rent pid accounts ((2 : Byte) :: p2) := by
  rfl

theorem U64LIMIT_eq_pow : U64LIMIT = 256 ^ 8 := by norm_num [U64LIMIT]

/-- A Donate call that passes its four checks always succeeds and produces
exactly the state the source computes: counter and writing balance bumped by
the staging balance (with wrapping u64 arithmetic), staging balance zeroed,
record re-encoded in place. -/
theorem donate_ok (pid : Nat) (w s d : AccountInfo) (rest : List AccountInfo)
    (instr : List Byte) (c : CampainDetails)
    (hs : d.is_signer = true) (hw : w.owner = pid) (hso : s.owner = pid)
    (hc : tryFromSliceCampain w.data = some c) :
    donate pid (w :: s :: d :: rest) instr =
      (.ok,
        { w with
            lamports := wadd w.lamports s.lamports,
            data := serializeCampain { c with amount_donated := wadd c.amount_donated s.lamports } } ::
          { s with lamports := 0 } :: d :: rest) := by
  have hdata : w.data = serializeCampain c := (tryFromSliceCampain_eq_some hc).1
  have hlen : (serializeCampain
      { c with amount_donated := wadd c.amount_donated s.lamports }).length =
      w.data.length := by
    rw [hdata, serializeCampain_length, serializeCampain_length]
  simp only [donate]
  rw [if_neg (by simp [hs]), if_neg (by simp [hw]), if_neg (by simp [hso]), hc]
  dsimp only
  rw [if_pos hlen.le, writeIntoBuffer_of_length_eq hlen]

/-- Claim C2, amended: under the claim's preconditions and additionally
assuming neither u64 addition overflows (`amount_donated + m < 2^64` and
`writingBalance + m < 2^64`), Donate succeeds, the staging balance becomes
0, the writing balance grows by exactly `m`, and the stored bytes decode to
the old record with `amount_donated` grown by exactly the same `m`. -/
theorem C2_donate_exact_transfer (pid : Nat) (w s d : AccountInfo)
    (rest : List AccountInfo) (instr : List Byte) (c : CampainDetails)
    (hs : d.is_signer = true) (hw : w.owner = pid) (hso : s.owner = pid)
    (hc : tryFromSliceCampain w.data = some c)
    (h1 : c.amount_donated + s.lamports < U64LIMIT)
    (h2 : w.lamports + s.lamports < U64LIMIT) :
    (donate pid (w :: s :: d :: rest) instr).1 = .ok ∧
    (donate pid (w :: s :: d :: rest) instr).2 =
      { w with
          lamports := w.lamports + s.lamports,
          data := serializeCampain { c with amount_donated := c.amount_donated + s.lamports } } ::
        { s with lamports := 0 } :: d :: rest ∧
    tryFromSliceCampain
        (serializeCampain
          { c with amount_donated := c.amount_donated + s.lamports }) =
      some { c with amount_donated := c.amount_donated + s.lamports } := by
  have hv := (tryFromSliceCampain_eq_some hc).2
  rw [donate_ok pid w s d rest instr c hs hw hso hc, wadd_eq h1, wadd_eq h2]
  refine ⟨rfl, rfl, ?_⟩
  apply tryFromSliceCampain_serialize
  obtain ⟨hv1, hv2, hv3, hv4, _⟩ := hv
  exact ⟨hv1, hv2, hv3, hv4, by rw [← U64LIMIT_eq_pow]; exact h1⟩

/-- Counterexample to claim C2 as stated: with a stored counter of
`2^64 - 1` and a staged donation of 1 lamport, all of the claim's
preconditions hold, yet after the call the stored counter is 0, not
`(2^64 - 1) + 1` — the u64 addition wrapped. -/
theorem C2_counterexample :
    (tryFromSliceCampain (wEx 100 (U64LIMIT - 1)).data).map
        (fun c => c.amount_donated) = some (U64LIMIT - 1) ∧
    (donate 7 [wEx 100 (U64LIMIT - 1), stagingEx 1, donorEx] []).1 = .ok ∧
    (tryFromSliceCampain
        ((donate 7 [wEx 100 (U64LIMIT - 1), stagingEx 1, donorEx] []).2.headD
          donorEx).data).map (fun c => c.amount_donated) = some 0 ∧
    (U64LIMIT - 1) + 1 ≠ 0 := by
  decide

/-- Witness for C2 at a concrete state: a 5-lamport staged donation into a
fresh campaign succeeds. -/
theorem C2_witness :
    (donate 7 [wEx 100 0, stagingEx 5, donorEx] []).1 = .ok :=
  (C2_donate_exact_transfer 7 (wEx 100 0) (stagingEx 5) donorEx [] []
    (cRec 0) (by decide) (by decide) (by decide) (by decide) (by decide)
    (by decide)).1

/-- Claim C3, amended: under the claim's preconditions and additionally
assuming the admin credit does not overflow u64
(`adminBalance + amount < 2^64`), Withdraw succeeds, moves exactly `amount`
from the writing account to the admin account, and leaves the stored record
bytes byte-for-byte unchanged. -/
theorem C3_withdraw_exact_transfer (rent : Nat → Nat) (pid : Nat)
    (w a : AccountInfo) (rest : List AccountInfo) (instr : List Byte)
    (c : CampainDetails) (r : WithdrawRequest)
    (hs : a.is_signer = true) (hw : w.owner = pid)
    (hc : tryFromSliceCampain w.data = some c) (ha : c.admin = a.key)
    (hr : tryFromSliceWithdraw instr = some r)
    (hfloor : rent w.data.length ≤ w.lamports)
    (hamt : r.amount ≤ w.lamports - rent w.data.length)
    (hrange : w.lamports < U64LIMIT)
    (hadd : a.lamports + r.amount < U64LIMIT) :
    (withdraw rent pid (w :: a :: rest) instr).1 = .ok ∧
    (withdraw rent pid (w :: a :: rest) instr).2 =
      { w with lamports := w.lamports - r.amount } ::
        { a with lamports := a.lamports + r.amount } :: rest := by
  have hbal : wsub w.lamports (rent w.data.length) =
      w.lamports - rent w.data.length := wsub_eq hfloor hrange
  have hamt2 : r.amount ≤ w.lamports := le_trans hamt (Nat.sub_le _ _)
  simp only [withdraw]
  rw [if_neg (by simp [hs]), if_neg (by simp [hw]), hc]
  dsimp only
  rw [if_neg (by simp [ha]), hr]
  dsimp only
  rw [hbal, if_neg (by omega), wsub_eq hamt2 hrange, wadd_eq hadd]
  exact ⟨rfl, rfl⟩

/-- Counterexample to claim C3 as stated: all of the claim's preconditions
hold (balance 100, floor 10, requested amount 1), but the admin account
already holds `2^64 - 1` lamports, so its balance wraps to 0 instead of
increasing by exactly 1. -/
theorem C3_counterexample :
    (withdraw rentTen 7 [wEx 100 0, adminEx (U64LIMIT - 1)]
        (encodeLE 8 1)).1 = .ok ∧
    (withdraw rentTen 7 [wEx 100 0, adminEx (U64LIMIT - 1)]
        (encodeLE 8 1)).2 =
      [{ wEx 100 0 with lamports := 99 },
       { adminEx (U64LIMIT - 1) with lamports := 0 }] ∧
    (U64LIMIT - 1) + 1 ≠ 0 := by
  decide

/-- Witness for C3 at a concrete state: withdrawing 1 lamport from a
campaign with balance 100 and floor 10 succeeds. -/
theorem C3_witness :
    (withdraw rentTen 7 [wEx 100 0, adminEx 50] (encodeLE 8 1)).1 = .ok :=
  (C3_withdraw_exact_transfer rentTen 7 (wEx 100 0) (adminEx 50) []
    (encodeLE 8 1) (cRec 0) { amount := 1 } (by decide) (by decide)
    (by decide) (by decide) (by decide) (by decide) (by decide) (by decide)
    (by decide)).1

/-- The record a Create call stores: the decoded payload with the
caller-supplied counter forced to 0. -/
def initRecord (p : CampainDetails) : CampainDetails :=
  { p with amount_donated := 0 }

/-- Claim C7, amended: under the claim's preconditions plus the condition
that the encoding fits the storage cell, Create succeeds without balance
changes, writes the encoding of the payload-with-zero-counter over the
front of the cell, and leaves any bytes of the cell beyond the encoding
unchanged (the cell is fully overwritten only when its length equals the
encoding's length, in which case the stored bytes decode back to exactly
that record). -/
theorem C7_create_initializes (rent : Nat → Nat) (pid : Nat)
    (w cr : AccountInfo) (rest : List AccountInfo) (payload : List Byte)
    (p : CampainDetails)
    (hs : cr.is_signer = true) (hw : w.owner = pid)
    (hp : tryFromSliceCampain payload = some p) (ha : p.admin = cr.key)
    (hrent : rent w.data.length ≤ w.lamports)
    (hfit : (serializeCampain (initRecord p)).length ≤ w.data.length) :
    (create_campain rent pid (w :: cr :: rest) payload).1 = .ok ∧
    (create_campain rent pid (w :: cr :: rest) payload).2 =
      { w with data := serializeCampain (initRecord p) ++ w.data.drop (serializeCampain (initRecord p)).length } ::
        cr :: rest ∧
    (w.data.length = (serializeCampain (initRecord p)).length →
      (create_campain rent pid (w :: cr :: rest) payload).2 =
        { w with data := serializeCampain (initRecord p) } :: cr :: rest ∧
      tryFromSliceCampain (serializeCampain (initRecord p)) =
        some (initRecord p)) := by
  have hv := (tryFromSliceCampain_eq_some hp).2
  simp only [create_campain]
  rw [if_neg (by simp [hs]), if_neg (by simp [hw]), hp]
  dsimp only
  rw [if_neg (by simp [ha]), if_neg (by omega)]
  unfold initRecord at hfit ⊢
  rw [if_pos hfit, writeIntoBuffer_of_length_le hfit]
  refine ⟨rfl, rfl, fun heq => ⟨?_, ?_⟩⟩
  · rw [← heq, List.drop_length, List.append_nil]
  · apply tryFromSliceCampain_serialize
    obtain ⟨hv1, hv2, hv3, hv4, _⟩ := hv
    exact ⟨hv1, hv2, hv3, hv4, by positivity⟩

/-- Counterexample to claim C7 as stated: a writing account whose cell is
one byte longer than the encoding passes all of the claim's preconditions;
Create succeeds but the stored cell is NOT fully overwritten (its trailing
prior byte 9 survives) and its content no longer decodes as a record. -/
theorem C7_counterexample :
    (create_campain rentZero 7
        [{ wEx 0 0 with data := serializeCampain (cRec 0) ++ [(9 : Byte)] },
         adminEx 0] (serializeCampain (cRec 0))).1 = .ok ∧
    tryFromSliceCampain
        ((create_campain rentZero 7
          [{ wEx 0 0 with data := serializeCampain (cRec 0) ++ [(9 : Byte)] },
           adminEx 0] (serializeCampain (cRec 0))).2.headD donorEx).data =
      none ∧
    ((create_campain rentZero 7
        [{ wEx 0 0 with data := serializeCampain (cRec 0) ++ [(9 : Byte)] },
         adminEx 0] (serializeCampain (cRec 0))).2.headD
      donorEx).data.getLast? = some (9 : Byte) := by
  decide

/-- Witness for C7 at a concrete state: a fresh 52-byte cell exactly fits
the encoding and Create succeeds. -/
theorem C7_witness :
    (create_campain rentZero 7 [wEx 0 0, adminEx 0]
      (serializeCampain (cRec 3))).1 = .ok :=
  (C7_create_initializes rentZero 7 (wEx 0 0) (adminEx 0) []
    (serializeCampain (cRec 3)) (cRec 3) (by decide) (by decide) (by decide)
    (by decide) (by decide) (by decide)).1

theorem withdraw_err_unchanged (rent : Nat → Nat) (pid : Nat)
    (accounts : List AccountInfo) (instr : List Byte) (e : ProgramError)
    (h : (withdraw rent pid accounts instr).1 = .err e) :
    (withdraw rent pid accounts instr).2 = accounts := by
  revert h
  unfold withdraw
  rcases accounts with _ | ⟨w, _ | ⟨a, rest⟩⟩
  · intro _; rfl
  · intro _; rfl
  · dsimp only
    repeat' split
    all_goals intro h
    all_goals first | rfl | simp_all

theorem donate_err_unchanged (pid : Nat) (accounts : List AccountInfo)
    (instr : List Byte) (e : ProgramError)
    (h : (donate pid accounts instr).1 = .err e) :
    (donate pid accounts instr).2 = accounts := by
  revert h
  unfold donate
  rcases accounts with _ | ⟨w, _ | ⟨s, _ | ⟨d, rest⟩⟩⟩
  · intro _; rfl
  · intro _; rfl
  · intro _; rfl
  · try dsimp only
    split
    · intro _; rfl
    split
    · intro _; rfl
    split
    · intro _; rfl
    split
    · intro h; simp_all
    next c heq =>
      try dsimp only
      split
      · intro h; simp_all
      next hnotfit =>
        intro h
        exfalso
        apply hnotfit
        have hd := (tryFromSliceCampain_eq_some heq).1
        rw [hd, serializeCampain_length, serializeCampain_length]

theorem create_err_cases (rent : Nat → Nat) (pid : Nat)
    (accounts : List AccountInfo) (instr : List Byte) (e : ProgramError)
    (h : (create_campain rent pid accounts instr).1 = .err e) :
    e = .BorshIoError ∨
      (create_campain rent pid accounts instr).2 = accounts := by
  revert h
  unfold create_campain
  rcases accounts with _ | ⟨w, _ | ⟨cr, rest⟩⟩
  · intro _; right; rfl
  · intro _; right; rfl
  · try dsimp only
    split
    · intro _; right; rfl
    split
    · intro _; right; rfl
    split
    · intro h; simp_all
    · try dsimp only
      split
      · intro _; right; rfl
      split
      · intro _; right; rfl
      split
      · intro h; simp_all
      · intro h
        left
        exact (Status.err.inj h).symm

/-- Claim C5, amended: every failure returned by Withdraw or Donate leaves
the account list (balances and stored bytes) exactly as it was, and so does
every failure returned by Create except its final encode failure
(`BorshIoError`, raised when the writing cell is smaller than the encoded
record), which can leave the cell's prefix partially overwritten. Since the
handlers are deterministic, replaying such a failing call any number of
times changes nothing. -/
theorem C5_failing_calls_mutate_nothing_except_create_encode :
    (∀ (rent : Nat → Nat) (pid : Nat) (accounts : List AccountInfo)
        (instr : List Byte) (e : ProgramError),
      (withdraw rent pid accounts instr).1 = .err e →
      (withdraw rent pid accounts instr).2 = accounts) ∧
    (∀ (pid : Nat) (accounts : List AccountInfo) (instr : List Byte)
        (e : ProgramError),
      (donate pid accounts instr).1 = .err e →
      (donate pid accounts instr).2 = accounts) ∧
    (∀ (rent : Nat → Nat) (pid : Nat) (accounts : List AccountInfo)
        (instr : List Byte) (e : ProgramError),
      (create_campain rent pid accounts instr).1 = .err e →
      e = .BorshIoError ∨
        (create_campain rent pid accounts instr).2 = accounts) :=
  ⟨withdraw_err_unchanged, donate_err_unchanged, create_err_cases⟩

/-- Counterexample to claim C5 as stated: Create on a valid payload with a
10-byte cell passes every validation, then fails inside its final encode —
returning `BorshIoError` with the cell's 10 bytes already overwritten by
the encoding's prefix. A failing call mutated stored bytes. -/
theorem C5_counterexample :
    (create_campain rentZero 7
        [{ wEx 0 0 with data := List.replicate 10 (0 : Byte) }, adminEx 0]
        (serializeCampain (cRec 0))).1 = .err .BorshIoError ∧
    (create_campain rentZero 7
        [{ wEx 0 0 with data := List.replicate 10 (0 : Byte) }, adminEx 0]
        (serializeCampain (cRec 0))).2 ≠
      [{ wEx 0 0 with data := List.replicate 10 (0 : Byte) }, adminEx 0] := by
  decide

/-- Witness for C5 at a concrete failing Withdraw (admin did not sign):
the account list is returned unchanged. -/
theorem C5_witness :
    (withdraw rentTen 7 [wEx 100 0, wEx 100 0] []).2 =
      [wEx 100 0, wEx 100 0] :=
  C5_failing_calls_mutate_nothing_except_create_encode.1 rentTen 7
    [wEx 100 0, wEx 100 0] [] .IncorrectProgramId (by decide)

/-- The stored campaign counter of a writing account, when its bytes decode. -/
def amountOf (w : AccountInfo) : Option Nat :=
  (tryFromSliceCampain w.data).map (fun c => c.amount_donated)

/-- One operation applied to a campaign's writing account: a Withdraw with
its payload and admin account, or a Donate with its staging and donor
accounts. -/
inductive Op where
  | opWithdraw : List Byte → AccountInfo → Op
  | opDonate : AccountInfo → AccountInfo → Op
deriving Repr

/-- The writing account after running one operation through the matching
handler (the handlers keep the writing account at position 0). -/
def runOp (rent : Nat → Nat) (pid : Nat) (w : AccountInfo) : Op → AccountInfo
  | .opWithdraw instr adminAcct =>
    ((withdraw rent pid [w, adminAcct] instr).2).headD w
  | .opDonate staging donor =>
    ((donate pid [w, staging, donor] []).2).headD w

/-- The writing account after running a sequence of operations. -/
def runOps (rent : Nat → Nat) (pid : Nat) (w : AccountInfo) :
    List Op → AccountInfo
  | [] => w
  | op :: ops => runOps rent pid (runOp rent pid w op) ops

/-- A donate step stays within u64: the stored counter plus the staged
balance does not overflow. Withdraw steps are always within bounds. -/
def stepOk (w : AccountInfo) : Op → Bool
  | .opWithdraw _ _ => true
  | .opDonate staging _ =>
    match amountOf w with
    | some a => decide (a + staging.lamports < U64LIMIT)
    | none => true

/-- Every donate step of the sequence stays within u64. -/
def seqOk (rent : Nat → Nat) (pid : Nat) (w : AccountInfo) :
    List Op → Bool
  | [] => true
  | op :: ops => stepOk w op && seqOk rent pid (runOp rent pid w op) ops

/-- Withdraw never touches the writing account's stored bytes, whatever its
outcome. -/
theorem withdraw_headD_data (rent : Nat → Nat) (pid : Nat)
    (w a : AccountInfo) (rest : List AccountInfo) (instr : List Byte) :
    (((withdraw rent pid (w :: a :: rest) instr).2).headD w).data = w.data := by
  unfold withdraw
  try dsimp only
  repeat' split
  all_goals simp

/-- A Donate call either leaves the stored counter untouched (a failed
check, or a panic on undecodable bytes) or bumps it by the staging balance
with wrapping addition. -/
theorem donate_amount_cases (pid : Nat) (w s d : AccountInfo)
    (rest : List AccountInfo) (instr : List Byte) :
    amountOf ((donate pid (w :: s :: d :: rest) instr).2.headD w) =
      amountOf w ∨
    (∃ c, tryFromSliceCampain w.data = some c ∧
      amountOf ((donate pid (w :: s :: d :: rest) instr).2.headD w) =
        some (wadd c.amount_donated s.lamports)) := by
  by_cases h1 : d.is_signer = false
  · left
    simp only [donate]
    rw [if_pos h1]
    simp
  by_cases h2 : w.owner ≠ pid
  · left
    simp only [donate]
    rw [if_neg h1, if_pos h2]
    simp
  by_cases h3 : s.owner ≠ pid
  · left
    simp only [donate]
    rw [if_neg h1, if_neg h2, if_pos h3]
    simp
  cases hc : tryFromSliceCampain w.data with
  | none =>
    left
    simp only [donate]
    rw [if_neg h1, if_neg h2, if_neg h3, hc]
    simp
  | some c =>
    right
    refine ⟨c, rfl, ?_⟩
    have hsig : d.is_signer = true := by
      revert h1; cases d.is_signer <;> simp
    rw [donate_ok pid w s d rest instr c hsig (not_not.mp h2)
      (not_not.mp h3) hc]
    have hv := (tryFromSliceCampain_eq_some hc).2
    obtain ⟨hv1, hv2, hv3, hv4, _⟩ := hv
    have hval : ValidCampain
        { c with amount_donated := wadd c.amount_donated s.lamports } := by
      refine ⟨hv1, hv2, hv3, hv4, ?_⟩
      rw [← U64LIMIT_eq_pow]
      exact Nat.mod_lt _ (by norm_num [U64LIMIT])
    unfold amountOf
    dsimp only [List.headD]
    rw [tryFromSliceCampain_serialize _ hval]
    rfl

/-- One in-bounds step never decreases the stored counter. -/
theorem runOp_amount_mono (rent : Nat → Nat) (pid : Nat) (w : AccountInfo)
    (op : Op) (a : Nat) (hok : stepOk w op = true)
    (ha : amountOf w = some a) :
    ∃ b, amountOf (runOp rent pid w op) = some b ∧ a ≤ b := by
  cases op with
  | opWithdraw instr adm =>
    refine ⟨a, ?_, le_refl a⟩
    unfold runOp amountOf
    rw [withdraw_headD_data]
    exact ha
  | opDonate s dn =>
    rcases donate_amount_cases pid w s dn [] [] with hcase | ⟨c, hc, hcase⟩
    · refine ⟨a, ?_, le_refl a⟩
      unfold runOp
      rw [hcase]
      exact ha
    · have hac : c.amount_donated = a := by
        unfold amountOf at ha
        rw [hc] at ha
        exact Option.some.inj ha
      have hlt : a + s.lamports < U64LIMIT := by
        unfold stepOk at hok
        rw [ha] at hok
        exact of_decide_eq_true hok
      refine ⟨a + s.lamports, ?_, Nat.le_add_right a s.lamports⟩
      unfold runOp
      rw [hcase, hac, wadd_eq hlt]

/-- Across any in-bounds sequence of Withdraw/Donate operations the stored
counter never decreases. -/
theorem runOps_amount_mono (rent : Nat → Nat) (pid : Nat) (ops : List Op) :
    ∀ (w : AccountInfo) (a : Nat), seqOk rent pid w ops = true →
      amountOf w = some a →
      ∃ b, amountOf (runOps rent pid w ops) = some b ∧ a ≤ b := by
  induction ops with
  | nil =>
    intro w a _ ha
    exact ⟨a, ha, le_refl a⟩
  | cons op ops ih =>
    intro w a hseq ha
    unfold seqOk at hseq
    rw [Bool.and_eq_true] at hseq
    obtain ⟨hstep, hrest⟩ := hseq
    obtain ⟨b, hb, hab⟩ := runOp_amount_mono rent pid w op a hstep ha
    obtain ⟨b2, hb2, hbb2⟩ := ih (runOp rent pid w op) b hrest hb
    exact ⟨b2, by unfold runOps; exact hb2, le_trans hab hbb2⟩

/-- Claim C6, amended: across every sequence of Withdraw and Donate
operations whose donate steps stay within u64, the stored `amount_donated`
is monotonically non-decreasing; Withdraw never changes the stored bytes at
all, and each Donate that passes its checks increases the counter by
exactly the staged balance. (Re-running Create resets the counter to 0 —
the counterexample — so sequences must exclude re-creation; overflowing
donate steps wrap and are likewise excluded.) -/
theorem C6_amount_donated_monotone :
    (∀ (rent : Nat → Nat) (pid : Nat) (w : AccountInfo) (ops : List Op)
        (a : Nat),
      seqOk rent pid w ops = true → amountOf w = some a →
      ∃ b, amountOf (runOps rent pid w ops) = some b ∧ a ≤ b) ∧
    (∀ (rent : Nat → Nat) (pid : Nat) (w adm : AccountInfo)
        (rest : List AccountInfo) (instr : List Byte),
      (((withdraw rent pid (w :: adm :: rest) instr).2).headD w).data =
        w.data) ∧
    (∀ (pid : Nat) (w s d : AccountInfo) (rest : List AccountInfo)
        (instr : List Byte) (c : CampainDetails),
      d.is_signer = true → w.owner = pid → s.owner = pid →
      tryFromSliceCampain w.data = some c →
      c.amount_donated + s.lamports < U64LIMIT →
      amountOf ((donate pid (w :: s :: d :: rest) instr).2.headD w) =
        some (c.amount_donated + s.lamports)) := by
  refine ⟨fun rent pid w ops a h1 h2 =>
    runOps_amount_mono rent pid ops w a h1 h2,
    withdraw_headD_data, ?_⟩
  intro pid w s d rest instr c hsig hw hso hc hlt
  rw [donate_ok pid w s d rest instr c hsig hw hso hc]
  have hv := (tryFromSliceCampain_eq_some hc).2
  obtain ⟨hv1, hv2, hv3, hv4, _⟩ := hv
  have hval : ValidCampain
      { c with amount_donated := wadd c.amount_donated s.lamports } := by
    refine ⟨hv1, hv2, hv3, hv4, ?_⟩
    rw [← U64LIMIT_eq_pow]
    exact Nat.mod_lt _ (by norm_num [U64LIMIT])
  unfold amountOf
  dsimp only [List.headD]
  rw [tryFromSliceCampain_serialize _ hval]
  dsimp only [Option.map]
  rw [wadd_eq hlt]

/-- Counterexample to claim C6 as stated: calling Create again on an
already-funded campaign (counter 500) passes all of Create's checks and
resets the stored counter to 0, a strict decrease not performed by the
Donate handler. -/
theorem C6_counterexample :
    amountOf (wEx 100 500) = some 500 ∧
    (create_campain rentZero 7 [wEx 100 500, adminEx 0]
        (serializeCampain (cRec 0))).1 = .ok ∧
    amountOf ((create_campain rentZero 7 [wEx 100 500, adminEx 0]
        (serializeCampain (cRec 0))).2.headD donorEx) = some 0 ∧
    ¬ (500 : Nat) ≤ 0 := by
  decide

/-- Witness for C6 at a concrete two-step sequence: a 5-lamport donation
followed by a withdrawal never decreases the counter from 0. -/
theorem C6_witness :
    ∃ b, amountOf (runOps rentZero 7 (wEx 100 0)
        [Op.opDonate (stagingEx 5) donorEx,
         Op.opWithdraw (encodeLE 8 1) (adminEx 0)]) = some b ∧ 0 ≤ b :=
  C6_amount_donated_monotone.1 rentZero 7 (wEx 100 0)
    [Op.opDonate (stagingEx 5) donorEx,
     Op.opWithdraw (encodeLE 8 1) (adminEx 0)] 0 (by decide) (by decide)

end CrowdFunding
